import Mathlib

/-!
Shallow embedding of the write path of openbsd-ldapd (`src/modify.c`):
the three mutation operations `ldap_delete`, `ldap_add`, `ldap_modify`.

External collaborators (wire decoding, schema catalog, authorization,
referral resolution, the btree engine's fault behaviour, UUID/timestamp
generation) are represented by an explicit environment `Env` of oracle
values; the partition's ordered key-value store is a list of
(key, entry) pairs whose list order is the store's cursor order.

Entry/attribute helper routines (`ldap_get_attribute`, `ldap_add_attribute`,
`ldap_set_values`, `ldap_merge_values`, `ldap_del_attribute`,
`ldap_del_values`) and the DN helpers (`normalize_dn`, `has_suffix`) live in
other files of the repository that are not part of `src/`; they are modelled
from the spec, as marked on each definition.  Keys and attribute names are
taken post-normalization (the model's strings are the normalized forms).
-/

namespace Ldapd

/-- The protocol result codes produced by the write path (values of the
LDAP result-code surface used in `modify.c`). -/
inductive ResultCode where
  | success
  | protocolError
  | namingViolation
  | insufficientAccess
  | busy
  | notAllowedOnNonleaf
  | noSuchObject
  | otherError
  | noSuchAttribute
  | constraintViolation
  | alreadyExists
  | invalidDnSyntax
deriving DecidableEq, Repr

/-- A BER value as it appears inside an attribute's value set.  Decoded
attribute values are octet strings (`str`); `set` records the BER SET
type tag that `ldap_modify`'s DELETE case inspects
(`vals->be_sub->be_type == BER_TYPE_SET`). -/
inductive BerVal where
  | str (s : String)
  | set (vs : List String)
deriving DecidableEq, Repr

/-- Whether a BER value carries the SET type tag. -/
def BerVal.isSet : BerVal → Bool
  | .str _ => false
  | .set _ => true

abbrev AttrName := String

/-- An entry: an insertion-ordered list of attributes, each a name with a
list of values. -/
abbrev Entry := List (AttrName × List BerVal)

/-- A partition's store: (key, entry) pairs in the btree's cursor order. -/
abbrev Store := List (String × Entry)

/-- Result of `lookup_attribute` on the schema catalog for a known type. -/
structure AttrType where
  immutable : Bool
deriving DecidableEq, Repr

/-- A namespace (partition): its `relax` flag and its store. -/
structure Namespace where
  relax : Bool
  store : Store
deriving DecidableEq, Repr

/-- Outcome of `namespace_begin`: success, EBUSY, or another error. -/
inductive BeginRes where
  | ok
  | busy
  | err
deriving DecidableEq, Repr

/-- Observable events of one operation: collaborator calls and replies. -/
inductive Event where
  | resolve (dn : String)
  | refer (dn : String)
  | beginTx
  | queueReq
  | commitTx
  | abortTx
  | respond (rc : ResultCode)
deriving DecidableEq, Repr

/-- The observable outcome of one operation: the handler's return value
(`none` on the referral path), the event trace, and the namespace's store
after the call (`none` when no namespace was resolved). -/
structure Outcome where
  ret : Option ResultCode
  events : List Event
  store : Option Store
deriving DecidableEq, Repr

/-- The environment of external collaborators for one request. -/
structure Env where
  /-- `lookup_attribute(conf->schema, name)`. -/
  schema : AttrName → Option AttrType
  /-- `namespace_for_base(dn)`. -/
  nsFor : String → Option Namespace
  /-- `namespace_referrals(dn)`; `some ()` when referrals exist. -/
  refsFor : String → Option Unit
  /-- `authorized(req->conn, ns, ACI_WRITE, dn, LDAP_SCOPE_BASE)`. -/
  auth : String → Bool
  /-- Outcome of `namespace_begin(ns)`. -/
  beginRes : BeginRes
  /-- Whether `namespace_queue_request(ns, req)` returns 0. -/
  queueOk : Bool
  /-- Whether `btree_txn_cursor_open` succeeds in `ldap_delete`. -/
  cursorOpenOk : Bool
  /-- Whether the ber allocations in `ldap_add`'s body succeed
  (the several `goto fail` allocation sites collapsed into one flag). -/
  allocOk : Bool
  /-- Whether `namespace_commit(ns)` returns 0 (checked only by `ldap_add`;
  `ldap_delete` and `ldap_modify` ignore the commit result). -/
  commitOk : Bool
  /-- `req->conn->binddn` (`none` for an anonymous bind). -/
  binddn : Option String
  /-- `ldap_now()`. -/
  now : String
  /-- the generated `entryUUID` string. -/
  uuid : String
  /-- `validate_entry(dn, entry, relax)`. -/
  validate : String → Entry → Bool → ResultCode

/-- Modelled from the spec: `has_suffix(key, dn)` from the leaf check — the
next key has `dn` as a structural suffix, i.e. `dn` is a strict ancestor of
`key` per the parent/child relation (proper right-hand suffix after the
`,` boundary delimiter). -/
def has_suffix (key dn : String) : Bool :=
  List.isSuffixOf (',' :: dn.data) key.data

/-- Modelled from the spec: `ldap_get_attribute(entry, name)` — the value
set of the named attribute, when present. -/
def ldap_get_attribute (e : Entry) (n : AttrName) : Option (List BerVal) :=
  (e.find? fun a => a.1 == n).map (·.2)

/-- Modelled from the spec: `ldap_add_attribute(entry, name, vals)` —
append a new attribute to the entry. -/
def ldap_add_attribute (e : Entry) (n : AttrName) (vs : List BerVal) : Entry :=
  e ++ [(n, vs)]

/-- Modelled from the spec: `ldap_set_values(a, vals)` — replace the named
attribute's value set with exactly the given values. -/
def ldap_set_values (e : Entry) (n : AttrName) (vs : List BerVal) : Entry :=
  e.map fun a => if a.1 == n then (a.1, vs) else a

/-- Modelled from the spec: `ldap_merge_values(a, vals)` — union the given
values into the named attribute (duplicates are the validator's concern). -/
def ldap_merge_values (e : Entry) (n : AttrName) (vs : List BerVal) : Entry :=
  e.map fun a => if a.1 == n then (a.1, a.2 ++ vs) else a

/-- Modelled from the spec: `ldap_del_attribute(entry, name)` — remove the
named attribute outright (a no-op when it is absent). -/
def ldap_del_attribute (e : Entry) (n : AttrName) : Entry :=
  e.filter fun a => a.1 != n

/-- Modelled from the spec: `ldap_del_values(a, vals)` — remove exactly the
given values from the named attribute, removing the attribute entirely if it
becomes empty (a no-op when the attribute is absent). -/
def ldap_del_values (e : Entry) (n : AttrName) (vs : List BerVal) : Entry :=
  (e.map fun a =>
    if a.1 == n then (a.1, a.2.filter fun v => !(vs.contains v)) else a).filter
    fun a => !(a.1 == n && a.2.isEmpty)

/-- `namespace_get(ns, dn)`: the entry stored at `dn`. -/
def namespace_get (st : Store) (dn : String) : Option Entry :=
  (st.find? fun kv => kv.1 == dn).map (·.2)

/-- `namespace_del(ns, dn)`: remove `dn`; fails (ENOENT) when absent. -/
def namespace_del (st : Store) (dn : String) : Option Store :=
  if st.any fun kv => kv.1 == dn then
    some (st.filter fun kv => kv.1 != dn)
  else none

/-- `namespace_add(ns, dn, attrs)`: insert `dn`; fails (EEXIST) when the
key is already occupied. -/
def namespace_add (st : Store) (dn : String) (e : Entry) : Option Store :=
  if st.any fun kv => kv.1 == dn then none
  else some (st ++ [(dn, e)])

/-- `namespace_update(ns, dn, entry)`: replace the entry at `dn`; fails
when the key is absent. -/
def namespace_update (st : Store) (dn : String) (e : Entry) : Option Store :=
  if st.any fun kv => kv.1 == dn then
    some (st.map fun kv => if kv.1 == dn then (kv.1, e) else kv)
  else none

/-- The cursor steps of `ldap_delete`: position at `dn` exactly
(`BT_CURSOR_EXACT`; `none` when the key is absent) and read the next key in
store order (`BT_NEXT`; `some none` when `dn` is the last key). -/
def cursor_next_key : Store → String → Option (Option String)
  | [], _ => none
  | kv :: rest, dn =>
    if kv.1 == dn then some ((rest.head?).map (·.1))
    else cursor_next_key rest dn

/-- `ldap_add`'s pre-transaction per-attribute schema loop: the first
failure among the entry's attribute names, scanned in order.  Unknown type
yields `noSuchAttribute`; a known immutable type yields
`constraintViolation`. -/
def check_attrs (env : Env) : Entry → Option ResultCode
  | [] => none
  | (n, _) :: rest =>
    match env.schema n with
    | none => some .noSuchAttribute
    | some aty =>
      if aty.immutable then some .constraintViolation
      else check_attrs env rest

/-- The shared `namespace_begin` block of all three operations: on EBUSY,
try `namespace_queue_request`; success returns `LDAP_BUSY` bare (no
`ldap_respond`), failure responds `busy`; any other begin error responds
`otherError`.  On success the body runs with `beginTx` traced. -/
def begin_gate (env : Env) (st : Store) (pre : List Event)
    (body : List Event → Outcome) : Outcome :=
  match env.beginRes with
  | .ok => body (pre ++ [.beginTx])
  | .busy =>
    if env.queueOk then
      ⟨some .busy, pre ++ [.beginTx, .queueReq], some st⟩
    else
      ⟨some .busy, pre ++ [.beginTx, .queueReq, .respond .busy], some st⟩
  | .err =>
    ⟨some .otherError, pre ++ [.beginTx, .respond .otherError], some st⟩

/-- The `fail:` label of `ldap_delete`: abort, then `noSuchObject` when
errno is ENOENT, otherwise `otherError`. -/
def delete_fail (pre : List Event) (enoent : Bool) (st : Store) : Outcome :=
  if enoent then
    ⟨some .noSuchObject, pre ++ [.abortTx, .respond .noSuchObject], some st⟩
  else
    ⟨some .otherError, pre ++ [.abortTx, .respond .otherError], some st⟩

/-- The `namespace_del` step of `ldap_delete`: delete then commit and
respond success, or fall to the `fail:` label (errno ENOENT). -/
def delete_do (ns : Namespace) (dn : String) (pre : List Event) : Outcome :=
  match namespace_del ns.store dn with
  | some st2 => ⟨some .success, pre ++ [.commitTx, .respond .success], some st2⟩
  | none => delete_fail pre true ns.store

/-- The transactional body of `ldap_delete`: the leaf check via a cursor
(exact position then next key), then the delete itself. -/
def delete_body (env : Env) (ns : Namespace) (dn : String)
    (pre : List Event) : Outcome :=
  if !env.cursorOpenOk then
    delete_fail pre false ns.store
  else
    match cursor_next_key ns.store dn with
    | none => delete_fail pre true ns.store
    | some (some k) =>
      if has_suffix k dn then
        ⟨some .notAllowedOnNonleaf,
          pre ++ [.abortTx, .respond .notAllowedOnNonleaf], some ns.store⟩
      else delete_do ns dn pre
    | some none => delete_do ns dn pre

/-- `ldap_delete(req)`: parse, normalize, partition lookup (note: no
empty-key check), authorization, begin, leaf check, delete. -/
def ldap_delete (env : Env) (parseOk : Bool) (dn : String) : Outcome :=
  if !parseOk then
    ⟨some .protocolError, [.respond .protocolError], none⟩
  else
    match env.nsFor dn with
    | none =>
      match env.refsFor dn with
      | none => ⟨some .namingViolation,
          [.resolve dn, .respond .namingViolation], none⟩
      | some _ => ⟨none, [.resolve dn, .refer dn], none⟩
    | some ns =>
      if !env.auth dn then
        ⟨some .insufficientAccess,
          [.resolve dn, .respond .insufficientAccess], some ns.store⟩
      else
        begin_gate env ns.store [.resolve dn] (delete_body env ns dn)

/-- The transactional body of `ldap_add`: operational-attribute injection
(`creatorsName`, `createTimestamp`, `entryUUID`), validation, insertion,
commit; every failure path aborts. -/
def add_body (env : Env) (ns : Namespace) (dn : String) (attrs : Entry)
    (pre : List Event) : Outcome :=
  if !env.allocOk then
    ⟨some .otherError, pre ++ [.abortTx, .respond .otherError], some ns.store⟩
  else
    let attrs1 := ldap_add_attribute attrs "creatorsName"
      [.str (env.binddn.getD "")]
    let attrs2 := ldap_add_attribute attrs1 "createTimestamp" [.str env.now]
    let attrs3 := ldap_add_attribute attrs2 "entryUUID" [.str env.uuid]
    let rc := env.validate dn attrs3 ns.relax
    if rc != .success then
      ⟨some rc, pre ++ [.abortTx, .respond rc], some ns.store⟩
    else
      match namespace_add ns.store dn attrs3 with
      | none =>
        ⟨some .alreadyExists,
          pre ++ [.abortTx, .respond .alreadyExists], some ns.store⟩
      | some st2 =>
        if env.commitOk then
          ⟨some .success, pre ++ [.commitTx, .respond .success], some st2⟩
        else
          ⟨some .otherError,
            pre ++ [.commitTx, .respond .otherError], some ns.store⟩

/-- `ldap_add(req)`: parse, normalize, empty-key check, partition lookup,
authorization, the pre-transaction immutable/unknown-attribute loop,
begin, then the transactional body. -/
def ldap_add (env : Env) (parseOk : Bool) (dn : String)
    (attrs : Entry) : Outcome :=
  if !parseOk then
    ⟨some .protocolError, [.respond .protocolError], none⟩
  else if dn == "" then
    ⟨some .invalidDnSyntax, [.respond .invalidDnSyntax], none⟩
  else
    match env.nsFor dn with
    | none =>
      match env.refsFor dn with
      | none => ⟨some .namingViolation,
          [.resolve dn, .respond .namingViolation], none⟩
      | some _ => ⟨none, [.resolve dn, .refer dn], none⟩
    | some ns =>
      if !env.auth dn then
        ⟨some .insufficientAccess,
          [.resolve dn, .respond .insufficientAccess], some ns.store⟩
      else
        match check_attrs env attrs with
        | some rc => ⟨some rc, [.resolve dn, .respond rc], some ns.store⟩
        | none => begin_gate env ns.store [.resolve dn] (add_body env ns dn attrs)

/-- One decoded modify-item: its per-item `ber_scanf_elements` result, the
operation kind (`LDAP_MOD_ADD` = 0, `LDAP_MOD_DELETE` = 1,
`LDAP_MOD_REPLACE` = 2), the attribute name and the value set. -/
structure ModItem where
  parseOk : Bool
  op : Int
  attr : AttrName
  vals : List BerVal
deriving DecidableEq, Repr

/-- The `switch (op)` of `ldap_modify`, applied to the in-memory entry.
The DELETE case mirrors the source exactly: values are deleted only when
the value set is non-empty and its first element carries the BER SET type,
otherwise the whole attribute is removed.  The REPLACE case with an empty
value set mirrors the source's `else if (a == NULL)`: it deletes the
attribute only when it is absent.  An operation kind outside 0..2 falls
through the switch with no edit. -/
def apply_mod_op (entry : Entry) (op : Int) (attr : AttrName)
    (vals : List BerVal) : Entry :=
  let a := ldap_get_attribute entry attr
  if op == 0 then
    match a with
    | none => ldap_add_attribute entry attr vals
    | some _ => ldap_merge_values entry attr vals
  else if op == 1 then
    match vals with
    | v :: _ =>
      if v.isSet then ldap_del_values entry attr vals
      else ldap_del_attribute entry attr
    | [] => ldap_del_attribute entry attr
  else if op == 2 then
    match vals with
    | _ :: _ =>
      match a with
      | none => ldap_add_attribute entry attr vals
      | some _ => ldap_set_values entry attr vals
    | [] =>
      match a with
      | none => ldap_del_attribute entry attr
      | some _ => entry
  else entry

/-- The modify-item loop of `ldap_modify`: per item, the parse check, the
schema check (unknown type is an error unless the namespace is relaxed),
the immutability check, then the switch; the first failure stops the loop
with its result code. -/
def apply_mods (env : Env) (relax : Bool) :
    Entry → List ModItem → Except ResultCode Entry
  | entry, [] => .ok entry
  | entry, m :: rest =>
    if !m.parseOk then .error .protocolError
    else
      match env.schema m.attr with
      | none =>
        if !relax then .error .noSuchAttribute
        else apply_mods env relax (apply_mod_op entry m.op m.attr m.vals) rest
      | some aty =>
        if aty.immutable then .error .constraintViolation
        else apply_mods env relax (apply_mod_op entry m.op m.attr m.vals) rest

/-- The `modifiersName`/`modifyTimestamp` stamping of `ldap_modify`:
overwrite when present, append when absent. -/
def stamp (e : Entry) (n : AttrName) (vs : List BerVal) : Entry :=
  match ldap_get_attribute e n with
  | some _ => ldap_set_values e n vs
  | none => ldap_add_attribute e n vs

/-- The transactional body of `ldap_modify`: fetch the entry, apply the
modify-items, validate, stamp the provenance attributes, persist; the
`done:` label commits exactly on `success` and aborts otherwise. -/
def modify_body (env : Env) (ns : Namespace) (dn : String)
    (mods : List ModItem) (pre : List Event) : Outcome :=
  match namespace_get ns.store dn with
  | none =>
    ⟨some .noSuchObject, pre ++ [.abortTx, .respond .noSuchObject],
      some ns.store⟩
  | some entry =>
    match apply_mods env ns.relax entry mods with
    | .error rc => ⟨some rc, pre ++ [.abortTx, .respond rc], some ns.store⟩
    | .ok entry2 =>
      let rc := env.validate dn entry2 ns.relax
      if rc != .success then
        ⟨some rc, pre ++ [.abortTx, .respond rc], some ns.store⟩
      else
        let entry3 := stamp entry2 "modifiersName" [.str (env.binddn.getD "")]
        let entry4 := stamp entry3 "modifyTimestamp" [.str env.now]
        match namespace_update ns.store dn entry4 with
        | some st2 =>
          ⟨some .success, pre ++ [.commitTx, .respond .success], some st2⟩
        | none =>
          ⟨some .otherError, pre ++ [.abortTx, .respond .otherError],
            some ns.store⟩

/-- `ldap_modify(req)`: parse, normalize, empty-key check, partition
lookup, authorization, begin, then the transactional body. -/
def ldap_modify (env : Env) (parseOk : Bool) (dn : String)
    (mods : List ModItem) : Outcome :=
  if !parseOk then
    ⟨some .protocolError, [.respond .protocolError], none⟩
  else if dn == "" then
    ⟨some .invalidDnSyntax, [.respond .invalidDnSyntax], none⟩
  else
    match env.nsFor dn with
    | none =>
      match env.refsFor dn with
      | none => ⟨some .namingViolation,
          [.resolve dn, .respond .namingViolation], none⟩
      | some _ => ⟨none, [.resolve dn, .refer dn], none⟩
    | some ns =>
      if !env.auth dn then
        ⟨some .insufficientAccess,
          [.resolve dn, .respond .insufficientAccess], some ns.store⟩
      else
        begin_gate env ns.store [.resolve dn] (modify_body env ns dn mods)

/-- Whether an event is a `namespace_commit` call. -/
def isCommit : Event → Bool
  | .resolve _ => false
  | .refer _ => false
  | .beginTx => false
  | .queueReq => false
  | .commitTx => true
  | .abortTx => false
  | .respond _ => false

/-- Whether an event is a `namespace_abort` call. -/
def isAbort : Event → Bool
  | .resolve _ => false
  | .refer _ => false
  | .beginTx => false
  | .queueReq => false
  | .commitTx => false
  | .abortTx => true
  | .respond _ => false

/-- Whether an event is an `ldap_respond` call. -/
def isRespond : Event → Bool
  | .resolve _ => false
  | .refer _ => false
  | .beginTx => false
  | .queueReq => false
  | .commitTx => false
  | .abortTx => false
  | .respond _ => true

/-- Number of `namespace_commit` calls in a trace. -/
def commitCount (es : List Event) : Nat := (es.filter isCommit).length

/-- Number of `namespace_abort` calls in a trace. -/
def abortCount (es : List Event) : Nat := (es.filter isAbort).length

/-- Whether any `ldap_respond` call occurs in the outcome's trace. -/
def respondedAny (o : Outcome) : Bool := o.events.any isRespond

/-- The commit/abort discipline of one operation's outcome: once a
transaction was opened, it is terminated exactly once — by commit when the
operation succeeds, by abort on every non-success path (the one exception
being a commit whose own failure turns the result into `otherError`). -/
def txDiscipline (o : Outcome) : Prop :=
  Event.beginTx ∈ o.events →
    commitCount o.events + abortCount o.events = 1 ∧
    (o.ret = some ResultCode.success → commitCount o.events = 1) ∧
    (abortCount o.events = 1 → o.ret ≠ some ResultCode.success)

/-- The shape every transactional body shares: the outcome's trace is the
preamble followed by a tail holding exactly one transaction terminator,
a commit exactly when the result is success. -/
def bodyTx (pre : List Event) (o : Outcome) : Prop :=
  ∃ rc tl, o.ret = some rc ∧ o.events = pre ++ tl ∧
    commitCount tl + abortCount tl = 1 ∧
    (rc = ResultCode.success → commitCount tl = 1)

/-- Whether the schema knows the attribute type and marks it mutable. -/
def knownMutable (env : Env) (n : AttrName) : Bool :=
  match env.schema n with
  | some aty => !aty.immutable
  | none => false

/-- Whether the schema lookup marks the attribute immutable. -/
def isImmutableIn (env : Env) (n : AttrName) : Bool :=
  match env.schema n with
  | some aty => aty.immutable
  | none => false

/-- Whether a modify-item's attribute passes `ldap_modify`'s schema and
immutability checks: known and mutable, or unknown on a relaxed
namespace. -/
def schemaPass (env : Env) (relax : Bool) (n : AttrName) : Bool :=
  match env.schema n with
  | none => relax
  | some aty => !aty.immutable

/-- Whether the store holds the given key. -/
def memKey (st : Store) (dn : String) : Bool :=
  st.any fun kv => kv.1 == dn

/-- Whether the store holds a descendant (per `has_suffix`) of `dn`. -/
def hasDescendantIn (st : Store) (dn : String) : Bool :=
  st.any fun kv => has_suffix kv.1 dn

/-- The store-ordering property the leaf check relies on (spec §4.2): the
key order places every key's descendants immediately after it — whenever a
key has a descendant anywhere in the store, its immediate successor is one
of its descendants — and no key is a descendant of a key sorted after
it. -/
def descAdjacentB : Store → Bool
  | [] => true
  | kv :: rest =>
    (!(hasDescendantIn rest kv.1) ||
      (match rest.head? with
       | some kv2 => has_suffix kv2.1 kv.1
       | none => false)) &&
    (rest.all fun kv2 => !(has_suffix kv.1 kv2.1)) &&
    descAdjacentB rest

/-- A concrete schema catalog for witnesses: `unk` is unknown, `imm` is
known and immutable, anything else is known and mutable. -/
def schema0 : AttrName → Option AttrType := fun n =>
  if n == "unk" then none
  else if n == "imm" then some ⟨true⟩
  else some ⟨false⟩

/-- A concrete store for witnesses: a parent entry and its child. -/
def store0 : Store :=
  [("cn=a,dc=x", [("mail", [.str "a@b"])]), ("cn=b,cn=a,dc=x", [])]

/-- A concrete relaxed namespace over `store0`. -/
def ns0 : Namespace := ⟨true, store0⟩

/-- A concrete environment for witnesses: every collaborator succeeds. -/
def env0 : Env :=
  { schema := schema0
    nsFor := fun dn => if dn == "" then none else some ns0
    refsFor := fun _ => none
    auth := fun _ => true
    beginRes := .ok
    queueOk := true
    cursorOpenOk := true
    allocOk := true
    commitOk := true
    binddn := some "cn=admin"
    now := "20240101000000Z"
    uuid := "u-u-i-d"
    validate := fun _ _ _ => .success }

/-- `env0` with a busy partition whose retry queue accepts the request. -/
def envBusy : Env := { env0 with beginRes := .busy }

/-- `env0` with a validator that always fails with `constraintViolation`. -/
def envValFail : Env :=
  { env0 with validate := fun _ _ _ => .constraintViolation }

theorem commitCount_append (a b : List Event) :
    commitCount (a ++ b) = commitCount a + commitCount b := by
  simp [commitCount, List.filter_append]

theorem abortCount_append (a b : List Event) :
    abortCount (a ++ b) = abortCount a + abortCount b := by
  simp [abortCount, List.filter_append]

theorem has_suffix_self (s : String) : has_suffix s s = false := by
  unfold has_suffix
  by_contra h
  rw [Bool.not_eq_false, List.isSuffixOf_iff_suffix] at h
  have := h.length_le
  simp at this

/-- No key is its own descendant, so a descendant of `dn` somewhere in the
store is a descendant in the tail once the head key is `dn` itself. -/
theorem cursor_finds_descendant (st : Store) (dn : String)
    (hadj : descAdjacentB st = true) (hmem : memKey st dn = true)
    (hdesc : hasDescendantIn st dn = true) :
    ∃ k, cursor_next_key st dn = some (some k) ∧ has_suffix k dn = true := by
  induction st with
  | nil => simp [memKey] at hmem
  | cons kv rest ih =>
    rw [descAdjacentB] at hadj
    simp only [Bool.and_eq_true] at hadj
    obtain ⟨⟨hhead, hnoanc⟩, hrest⟩ := hadj
    by_cases hk : (kv.1 == dn) = true
    · have hkeq : kv.1 = dn := eq_of_beq hk
      have hdesc' : hasDescendantIn rest dn = true := by
        rw [hasDescendantIn, List.any_cons] at hdesc
        rw [hkeq, has_suffix_self] at hdesc
        simpa [hasDescendantIn] using hdesc
      rw [← hkeq] at hdesc'
      rw [hdesc'] at hhead
      simp only [Bool.not_true, Bool.false_or] at hhead
      match hh : rest.head? with
      | none => rw [hh] at hhead; simp at hhead
      | some kv2 =>
        rw [hh] at hhead
        refine ⟨kv2.1, ?_, by rw [hkeq] at hhead; exact hhead⟩
        rw [cursor_next_key, if_pos hk, hh]
        rfl
    · have hkf : (kv.1 == dn) = false := by simpa using hk
      have hmem' : memKey rest dn = true := by
        rw [memKey, List.any_cons, hkf] at hmem
        simpa [memKey] using hmem
      have hdn_mem : ∃ kv2 ∈ rest, kv2.1 = dn := by
        rw [memKey, List.any_eq_true] at hmem'
        obtain ⟨kv2, h1, h2⟩ := hmem'
        exact ⟨kv2, h1, eq_of_beq h2⟩
      have hnotdesc : has_suffix kv.1 dn = false := by
        obtain ⟨kv2, h1, h2⟩ := hdn_mem
        rw [List.all_eq_true] at hnoanc
        have := hnoanc kv2 h1
        rw [h2] at this
        simpa using this
      have hdesc' : hasDescendantIn rest dn = true := by
        rw [hasDescendantIn, List.any_cons, hnotdesc] at hdesc
        simpa [hasDescendantIn] using hdesc
      obtain ⟨k, h1, h2⟩ := ih hrest hmem' hdesc'
      exact ⟨k, by rw [cursor_next_key, if_neg hk]; exact h1, h2⟩

/-- C6: a delete of a key that is present and has a descendant key in the
same partition (whose store order places descendants immediately after
their ancestor) responds `notAllowedOnNonleaf`, aborts the transaction,
and leaves the store unchanged. -/
theorem c6_nonleaf_delete_rejected (env : Env) (ns : Namespace) (dn : String)
    (hns : env.nsFor dn = some ns) (hauth : env.auth dn = true)
    (hok : env.beginRes = .ok) (hcur : env.cursorOpenOk = true)
    (hadj : descAdjacentB ns.store = true) (hmem : memKey ns.store dn = true)
    (hdesc : hasDescendantIn ns.store dn = true) :
    ldap_delete env true dn =
      ⟨some .notAllowedOnNonleaf,
       [.resolve dn, .beginTx, .abortTx, .respond .notAllowedOnNonleaf],
       some ns.store⟩ := by
  obtain ⟨k, hk, hks⟩ := cursor_finds_descendant ns.store dn hadj hmem hdesc
  simp [ldap_delete, hns, hauth, begin_gate, hok, delete_body, hcur, hk, hks]

/-- Witness for C6: deleting `cn=a,dc=x` while its child
`cn=b,cn=a,dc=x` is in the store responds `notAllowedOnNonleaf`, aborts,
and leaves the store unchanged. -/
theorem c6_witness :
    ldap_delete env0 true "cn=a,dc=x" =
      ⟨some .notAllowedOnNonleaf,
       [.resolve "cn=a,dc=x", .beginTx, .abortTx,
        .respond .notAllowedOnNonleaf], some store0⟩ :=
  c6_nonleaf_delete_rejected env0 ns0 "cn=a,dc=x" (by decide) (by decide)
    (by decide) (by decide) (by decide) (by decide) (by decide)

/-- C7: when entry validation fails after the modify-items have been
applied in memory, `ldap_modify` aborts and the store (hence the persisted
entry at the target key) is exactly its pre-request state. -/
theorem c7_modify_validation_failure_aborts (env : Env) (ns : Namespace)
    (dn : String) (mods : List ModItem) (entry entry2 : Entry)
    (rc : ResultCode)
    (hdn : (dn == "") = false) (hns : env.nsFor dn = some ns)
    (hauth : env.auth dn = true) (hok : env.beginRes = .ok)
    (hget : namespace_get ns.store dn = some entry)
    (happ : apply_mods env ns.relax entry mods = .ok entry2)
    (hval : env.validate dn entry2 ns.relax = rc)
    (hrc : rc ≠ .success) :
    ldap_modify env true dn mods =
      ⟨some rc, [.resolve dn, .beginTx, .abortTx, .respond rc],
        some ns.store⟩ := by
  have hbne : (rc != ResultCode.success) = true := bne_iff_ne.mpr hrc
  simp [ldap_modify, hdn, hns, hauth, begin_gate, hok, modify_body, hget,
    happ, hval, hbne]

/-- Witness for C7: a modify whose validator rejects the edited entry
aborts with `constraintViolation` and leaves the store unchanged. -/
theorem c7_witness :
    ldap_modify envValFail true "cn=a,dc=x"
        [⟨true, 0, "mail", [.str "x@y"]⟩] =
      ⟨some .constraintViolation,
       [.resolve "cn=a,dc=x", .beginTx, .abortTx,
        .respond .constraintViolation], some store0⟩ :=
  c7_modify_validation_failure_aborts envValFail ns0 "cn=a,dc=x"
    [⟨true, 0, "mail", [.str "x@y"]⟩]
    [("mail", [.str "a@b"])] [("mail", [.str "a@b", .str "x@y"])]
    .constraintViolation (by decide) (by decide) (by decide) (by decide)
    (by decide) (by rfl) (by rfl) (by decide)

/-- C8: a DELETE modify-item with an empty value set naming an attribute
that is known to the schema but absent from the entry is a no-op: the loop
continues on the unchanged entry, so the item alone never blocks the
modify. -/
theorem c8_delete_empty_absent_noop (env : Env) (relax : Bool)
    (entry : Entry) (attr : AttrName) (rest : List ModItem) (aty : AttrType)
    (hsch : env.schema attr = some aty) (himm : aty.immutable = false)
    (habs : ldap_get_attribute entry attr = none) :
    apply_mods env relax entry (⟨true, 1, attr, []⟩ :: rest) =
      apply_mods env relax entry rest := by
  have hfind : entry.find? (fun a => a.1 == attr) = none := by
    have h := habs
    unfold ldap_get_attribute at h
    exact Option.map_eq_none'.mp h
  have hdel : ldap_del_attribute entry attr = entry := by
    apply List.filter_eq_self.mpr
    intro a ha
    have h1 := List.find?_eq_none.mp hfind a ha
    have h2 : (a.1 == attr) = false := by simpa using h1
    simp [bne, h2]
  simp [apply_mods, hsch, himm, apply_mod_op, hdel]

/-- Witness for C8: `DELETE mail=[]` on an entry lacking `mail`, with
`mail` known, continues as a no-op. -/
theorem c8_witness :
    apply_mods env0 true [("cn", [.str "u"])] [⟨true, 1, "mail", []⟩] =
      apply_mods env0 true [("cn", [.str "u"])] [] :=
  c8_delete_empty_absent_noop env0 true [("cn", [.str "u"])] "mail" []
    ⟨false⟩ (by decide) (by decide) (by decide)

/-- C9: a modify-item whose operation kind is none of ADD (0), DELETE (1)
or REPLACE (2), once past the schema and immutability checks, falls
through the switch with no edit and the loop continues; it never by itself
produces a non-success result. -/
theorem c9_unknown_op_kind_noop (env : Env) (relax : Bool) (entry : Entry)
    (m : ModItem) (rest : List ModItem)
    (hp : m.parseOk = true)
    (h0 : m.op ≠ 0) (h1 : m.op ≠ 1) (h2 : m.op ≠ 2)
    (hpass : schemaPass env relax m.attr = true) :
    apply_mods env relax entry (m :: rest) = apply_mods env relax entry rest := by
  have e0 : (m.op == 0) = false := beq_eq_false_iff_ne.mpr h0
  have e1 : (m.op == 1) = false := beq_eq_false_iff_ne.mpr h1
  have e2 : (m.op == 2) = false := beq_eq_false_iff_ne.mpr h2
  have hop : apply_mod_op entry m.op m.attr m.vals = entry := by
    unfold apply_mod_op
    simp [e0, e1, e2]
  unfold schemaPass at hpass
  cases hsch : env.schema m.attr with
  | none =>
    rw [hsch] at hpass
    have hrel : relax = true := by simpa using hpass
    simp [apply_mods, hp, hsch, hrel, hop]
  | some aty =>
    rw [hsch] at hpass
    have : aty.immutable = false := by simpa using hpass
    simp [apply_mods, hp, hsch, this, hop]

/-- Witness for C9: an item with operation kind 7 on a known mutable
attribute is skipped. -/
theorem c9_witness :
    apply_mods env0 true [("mail", [.str "a@b"])] [⟨true, 7, "mail", []⟩] =
      apply_mods env0 true [("mail", [.str "a@b"])] [] :=
  c9_unknown_op_kind_noop env0 true [("mail", [.str "a@b"])]
    ⟨true, 7, "mail", []⟩ [] (by decide) (by decide) (by decide) (by decide)
    (by decide)

/-- C1 (code behaviour at the failing input): a REPLACE modify-item with an
empty value set leaves a *present* attribute in place — the source's
empty-value REPLACE branch (`else if (a == NULL)`) deletes the attribute
only when it is already absent, itself a no-op — so after a full modify
with `REPLACE mail=[]` the entry still carries `mail`, where the claim
requires it removed. -/
theorem c1_replace_empty_keeps_present_attribute :
    apply_mod_op [("mail", [BerVal.str "a@b"])] 2 "mail" [] =
      [("mail", [BerVal.str "a@b"])] ∧
    apply_mod_op ([] : Entry) 2 "mail" [] = ([] : Entry) ∧
    (ldap_modify env0 true "cn=a,dc=x" [⟨true, 2, "mail", []⟩]).ret =
      some .success ∧
    ((ldap_modify env0 true "cn=a,dc=x" [⟨true, 2, "mail", []⟩]).store.map
      fun st => ldap_get_attribute ((namespace_get st "cn=a,dc=x").getD [])
        "mail") = some (some [BerVal.str "a@b"]) := by
  exact ⟨by decide, by decide, by decide, by decide⟩

/-- C2 counterexample: on a relaxed partition, an add whose entry carries
an attribute type unknown to the schema is rejected with
`noSuchAttribute` by `ldap_add`'s pre-transaction per-attribute loop,
before any transaction is opened — the relax flag does not make the add
accept the unknown attribute. -/
theorem c2_counterexample :
    ns0.relax = true ∧ env0.schema "unk" = none ∧
    (ldap_add env0 true "cn=c,dc=x" [("unk", [BerVal.str "v"])]).ret =
      some .noSuchAttribute ∧
    Event.beginTx ∉
      (ldap_add env0 true "cn=c,dc=x" [("unk", [BerVal.str "v"])]).events := by
  exact ⟨by decide, by decide, by decide, by decide⟩

/-- C2 amended: the relax flag downgrades unknown-attribute errors only in
`ldap_modify`'s per-item type check — the unknown-attribute item is
applied and the loop continues — while `ldap_add`'s pre-transaction
schema loop rejects an unknown attribute type with `noSuchAttribute`
regardless of the partition's relax flag. -/
theorem c2_amended_relax_only_in_modify (env : Env) (dn : String)
    (ns : Namespace) (n : AttrName) (vs : List BerVal) (arest : Entry)
    (entry : Entry) (m : ModItem) (mrest : List ModItem)
    (hdn : (dn == "") = false) (hns : env.nsFor dn = some ns)
    (hauth : env.auth dn = true) (hrelax : ns.relax = true)
    (hunkA : env.schema n = none) (hunkM : env.schema m.attr = none)
    (hmp : m.parseOk = true) :
    (ldap_add env true dn ((n, vs) :: arest)).ret = some .noSuchAttribute ∧
    Event.beginTx ∉ (ldap_add env true dn ((n, vs) :: arest)).events ∧
    apply_mods env ns.relax entry (m :: mrest) =
      apply_mods env ns.relax (apply_mod_op entry m.op m.attr m.vals) mrest := by
  refine ⟨?_, ?_, ?_⟩
  · simp [ldap_add, hdn, hns, hauth, check_attrs, hunkA]
  · simp [ldap_add, hdn, hns, hauth, check_attrs, hunkA]
  · simp [apply_mods, hmp, hunkM, hrelax]

/-- Witness for the amended C2: on the relaxed `ns0`, an add of the
unknown `unk` is rejected with `noSuchAttribute` without a transaction,
while a modify-item on `unk` is applied and the loop continues. -/
theorem c2_amended_witness :
    (ldap_add env0 true "cn=c,dc=x" [("unk", [.str "v"])]).ret =
      some .noSuchAttribute ∧
    Event.beginTx ∉
      (ldap_add env0 true "cn=c,dc=x" [("unk", [.str "v"])]).events ∧
    apply_mods env0 ns0.relax [] [⟨true, 0, "unk", [.str "v"]⟩] =
      apply_mods env0 ns0.relax
        (apply_mod_op [] 0 "unk" [.str "v"]) [] :=
  c2_amended_relax_only_in_modify env0 "cn=c,dc=x" ns0 "unk" [.str "v"] []
    [] ⟨true, 0, "unk", [.str "v"]⟩ [] (by decide) (by decide) (by decide)
    (by decide) (by decide) (by decide) (by decide)

/-- C3 counterexample: a delete hitting a busy partition whose retry queue
accepts the request sends *no* reply at all — the handler returns `busy`
bare, with no `ldap_respond` in its trace — contradicting the claim that
an immediate `busy` reply is still sent in the successful-queue case. -/
theorem c3_counterexample :
    envBusy.beginRes = .busy ∧ envBusy.queueOk = true ∧
    (ldap_delete envBusy true "cn=a,dc=x").ret = some .busy ∧
    respondedAny (ldap_delete envBusy true "cn=a,dc=x") = false := by
  exact ⟨by decide, by decide, by decide, by decide⟩

/-- C3 amended: when `beginTransaction` fails busy and `enqueueForRetry`
succeeds, no immediate protocol reply is sent: each of the three handlers
returns `busy` to its caller without any `ldap_respond`, deferring the
reply to the queued retry; the immediate `busy` reply exists only on the
queue-rejected path. -/
theorem c3_amended_queued_busy_sends_no_reply (env : Env) (dn : String)
    (attrs : Entry) (mods : List ModItem) (ns : Namespace)
    (hbusy : env.beginRes = .busy) (hq : env.queueOk = true)
    (hns : env.nsFor dn = some ns) (hauth : env.auth dn = true)
    (hdn : (dn == "") = false) (hattrs : check_attrs env attrs = none) :
    ((ldap_delete env true dn).ret = some .busy ∧
      respondedAny (ldap_delete env true dn) = false ∧
      Event.queueReq ∈ (ldap_delete env true dn).events) ∧
    ((ldap_add env true dn attrs).ret = some .busy ∧
      respondedAny (ldap_add env true dn attrs) = false ∧
      Event.queueReq ∈ (ldap_add env true dn attrs).events) ∧
    ((ldap_modify env true dn mods).ret = some .busy ∧
      respondedAny (ldap_modify env true dn mods) = false ∧
      Event.queueReq ∈ (ldap_modify env true dn mods).events) := by
  have hd : ldap_delete env true dn =
      ⟨some .busy, [.resolve dn, .beginTx, .queueReq], some ns.store⟩ := by
    simp [ldap_delete, hns, hauth, begin_gate, hbusy, hq]
  have ha : ldap_add env true dn attrs =
      ⟨some .busy, [.resolve dn, .beginTx, .queueReq], some ns.store⟩ := by
    simp [ldap_add, hdn, hns, hauth, hattrs, begin_gate, hbusy, hq]
  have hm : ldap_modify env true dn mods =
      ⟨some .busy, [.resolve dn, .beginTx, .queueReq], some ns.store⟩ := by
    simp [ldap_modify, hdn, hns, hauth, begin_gate, hbusy, hq]
  rw [hd, ha, hm]
  refine ⟨⟨rfl, ?_, ?_⟩, ⟨rfl, ?_, ?_⟩, ⟨rfl, ?_, ?_⟩⟩ <;>
    simp [respondedAny, isRespond]

/-- Witness for the amended C3: on the busy `envBusy` all three handlers
return `busy` with no reply and a queued retry. -/
theorem c3_amended_witness :
    ((ldap_delete envBusy true "cn=a,dc=x").ret = some .busy ∧
      respondedAny (ldap_delete envBusy true "cn=a,dc=x") = false ∧
      Event.queueReq ∈ (ldap_delete envBusy true "cn=a,dc=x").events) ∧
    ((ldap_add envBusy true "cn=a,dc=x" []).ret = some .busy ∧
      respondedAny (ldap_add envBusy true "cn=a,dc=x" []) = false ∧
      Event.queueReq ∈ (ldap_add envBusy true "cn=a,dc=x" []).events) ∧
    ((ldap_modify envBusy true "cn=a,dc=x" []).ret = some .busy ∧
      respondedAny (ldap_modify envBusy true "cn=a,dc=x" []) = false ∧
      Event.queueReq ∈ (ldap_modify envBusy true "cn=a,dc=x" []).events) :=
  c3_amended_queued_busy_sends_no_reply envBusy "cn=a,dc=x" [] [] ns0
    (by decide) (by decide) (by decide) (by decide) (by decide) (by decide)

/-- C4 counterexample: an add whose entry holds an attribute marked
immutable (`imm`) preceded by an unknown attribute (`unk`) is rejected
with `noSuchAttribute`, not `constraintViolation` — the claim's
"regardless of the validity of the other attributes" fails. -/
theorem c4_counterexample :
    isImmutableIn env0 "imm" = true ∧
    (ldap_add env0 true "cn=c,dc=x" [("unk", []), ("imm", [])]).ret =
      some .noSuchAttribute ∧
    (ldap_add env0 true "cn=c,dc=x" [("unk", []), ("imm", [])]).ret ≠
      some .constraintViolation := by
  exact ⟨by decide, by decide, by decide⟩

/-- `ldap_add`'s schema loop skips a leading run of known, mutable
attributes. -/
theorem check_attrs_skips_known_mutable (env : Env) (pre tail : Entry)
    (hpre : pre.all (fun a => knownMutable env a.1) = true) :
    check_attrs env (pre ++ tail) = check_attrs env tail := by
  induction pre with
  | nil => rfl
  | cons a arest ih =>
    rw [List.all_cons, Bool.and_eq_true] at hpre
    obtain ⟨ha, hrest⟩ := hpre
    obtain ⟨n, vs⟩ := a
    unfold knownMutable at ha
    cases hsch : env.schema n with
    | none => rw [hsch] at ha; simp at ha
    | some aty =>
      rw [hsch] at ha
      have himm : aty.immutable = false := by simpa using ha
      simp [check_attrs, hsch, himm, ih hrest]

/-- C4 amended: an add whose entry contains an immutable attribute yields
`constraintViolation` with no transaction opened and the store unchanged,
provided every attribute *preceding* the first immutable one is known to
the schema (and mutable); an unknown attribute earlier in the list yields
`noSuchAttribute` instead. -/
theorem c4_amended_immutable_add_rejected (env : Env) (dn : String)
    (ns : Namespace) (pre : Entry) (n : AttrName) (vs : List BerVal)
    (rest : Entry) (aty : AttrType)
    (hdn : (dn == "") = false) (hns : env.nsFor dn = some ns)
    (hauth : env.auth dn = true)
    (hpre : pre.all (fun a => knownMutable env a.1) = true)
    (hsch : env.schema n = some aty) (himm : aty.immutable = true) :
    ldap_add env true dn (pre ++ (n, vs) :: rest) =
      ⟨some .constraintViolation,
       [.resolve dn, .respond .constraintViolation], some ns.store⟩ := by
  have hc : check_attrs env (pre ++ (n, vs) :: rest) =
      some .constraintViolation := by
    rw [check_attrs_skips_known_mutable env pre _ hpre]
    simp [check_attrs, hsch, himm]
  simp [ldap_add, hdn, hns, hauth, hc]

/-- Witness for the amended C4: adding `{mail, imm}` (known mutable, then
immutable) responds `constraintViolation` without opening a transaction
and leaves the store unchanged. -/
theorem c4_amended_witness :
    ldap_add env0 true "cn=c,dc=x" ([("mail", [])] ++ ("imm", []) :: []) =
      ⟨some .constraintViolation,
       [.resolve "cn=c,dc=x", .respond .constraintViolation],
       some store0⟩ :=
  c4_amended_immutable_add_rejected env0 "cn=c,dc=x" ns0 [("mail", [])]
    "imm" [] [] ⟨true⟩ (by decide) (by decide) (by decide) (by decide)
    (by decide) (by decide)

/-- The modify-item loop only fails with a non-success code. -/
theorem apply_mods_error_ne_success (env : Env) (relax : Bool)
    (entry : Entry) (ms : List ModItem) (rc : ResultCode)
    (h : apply_mods env relax entry ms = .error rc) : rc ≠ .success := by
  induction ms generalizing entry with
  | nil => simp [apply_mods] at h
  | cons m rest ih =>
    rw [apply_mods] at h
    split at h
    · simp only [Except.error.injEq] at h
      subst h; decide
    · split at h
      · split at h
        · simp only [Except.error.injEq] at h
          subst h; decide
        · exact ih _ h
      · split at h
        · simp only [Except.error.injEq] at h
          subst h; decide
        · exact ih _ h

/-- A body in `bodyTx` shape satisfies the commit/abort discipline once
the preamble holds no terminator. -/
theorem bodyTx_txDiscipline (pre : List Event) (o : Outcome)
    (hc : commitCount pre = 0) (ha : abortCount pre = 0)
    (h : bodyTx pre o) : txDiscipline o := by
  obtain ⟨rc, tl, hret, hev, hsum, hcs⟩ := h
  intro _
  refine ⟨?_, ?_, ?_⟩
  · rw [hev, commitCount_append, abortCount_append, hc, ha]
    omega
  · intro hs
    rw [hret] at hs
    injection hs with hs'
    rw [hev, commitCount_append, hc, hcs hs']
  · intro hab hs
    rw [hret] at hs
    injection hs with hs'
    rw [hev, abortCount_append, ha] at hab
    have := hcs hs'
    omega

theorem delete_fail_tx (pre : List Event) (b : Bool) (st : Store) :
    bodyTx pre (delete_fail pre b st) := by
  unfold delete_fail
  split
  · exact ⟨.noSuchObject, [.abortTx, .respond .noSuchObject], rfl, rfl,
      by decide, by decide⟩
  · exact ⟨.otherError, [.abortTx, .respond .otherError], rfl, rfl,
      by decide, by decide⟩

theorem delete_do_tx (ns : Namespace) (dn : String) (pre : List Event) :
    bodyTx pre (delete_do ns dn pre) := by
  unfold delete_do
  split
  · exact ⟨.success, [.commitTx, .respond .success], rfl, rfl,
      by decide, by decide⟩
  · exact delete_fail_tx pre true ns.store

theorem delete_body_tx (env : Env) (ns : Namespace) (dn : String)
    (pre : List Event) : bodyTx pre (delete_body env ns dn pre) := by
  unfold delete_body
  split
  · exact delete_fail_tx pre false ns.store
  · split
    · exact delete_fail_tx pre true ns.store
    · split
      · exact ⟨.notAllowedOnNonleaf,
          [.abortTx, .respond .notAllowedOnNonleaf], rfl, rfl,
          by decide, by decide⟩
      · exact delete_do_tx ns dn pre
    · exact delete_do_tx ns dn pre

theorem add_body_tx (env : Env) (ns : Namespace) (dn : String)
    (attrs : Entry) (pre : List Event) :
    bodyTx pre (add_body env ns dn attrs pre) := by
  unfold add_body
  split
  · exact ⟨.otherError, [.abortTx, .respond .otherError], rfl, rfl,
      by decide, by decide⟩
  · dsimp only
    split
    · next hrc =>
      refine ⟨_, [.abortTx, .respond _], rfl, rfl,
        by simp [commitCount, abortCount, isCommit, isAbort], ?_⟩
      intro hs
      rw [hs] at hrc
      simp at hrc
    · split
      · exact ⟨.alreadyExists, [.abortTx, .respond .alreadyExists], rfl,
          rfl, by decide, by decide⟩
      · split
        · exact ⟨.success, [.commitTx, .respond .success], rfl, rfl,
            by decide, by decide⟩
        · exact ⟨.otherError, [.commitTx, .respond .otherError], rfl, rfl,
            by decide, by decide⟩

theorem modify_body_tx (env : Env) (ns : Namespace) (dn : String)
    (mods : List ModItem) (pre : List Event) :
    bodyTx pre (modify_body env ns dn mods pre) := by
  unfold modify_body
  split
  · exact ⟨.noSuchObject, [.abortTx, .respond .noSuchObject], rfl, rfl,
      by decide, by decide⟩
  · split
    · next rc heq =>
      refine ⟨rc, [.abortTx, .respond rc], rfl, rfl,
        by simp [commitCount, abortCount, isCommit, isAbort], ?_⟩
      intro hs
      exact absurd hs (apply_mods_error_ne_success env ns.relax _ mods rc heq)
    · dsimp only
      split
      · next hrc =>
        refine ⟨_, [.abortTx, .respond _], rfl, rfl,
          by simp [commitCount, abortCount, isCommit, isAbort], ?_⟩
        intro hs
        rw [hs] at hrc
        simp at hrc
      · split
        · exact ⟨.success, [.commitTx, .respond .success], rfl, rfl,
            by decide, by decide⟩
        · exact ⟨.otherError, [.abortTx, .respond .otherError], rfl, rfl,
            by decide, by decide⟩

theorem ldap_delete_tx (env : Env) (p : Bool) (dn : String)
    (hok : env.beginRes = .ok) : txDiscipline (ldap_delete env p dn) := by
  unfold ldap_delete
  split
  · intro hmem; simp at hmem
  · split
    · split
      · intro hmem; simp at hmem
      · intro hmem; simp at hmem
    · split
      · intro hmem; simp at hmem
      · rw [begin_gate, hok]
        exact bodyTx_txDiscipline _ _
          (by simp [commitCount, isCommit])
          (by simp [abortCount, isAbort])
          (delete_body_tx env _ dn _)

theorem ldap_add_tx (env : Env) (p : Bool) (dn : String) (attrs : Entry)
    (hok : env.beginRes = .ok) : txDiscipline (ldap_add env p dn attrs) := by
  unfold ldap_add
  split
  · intro hmem; simp at hmem
  · split
    · intro hmem; simp at hmem
    · split
      · split
        · intro hmem; simp at hmem
        · intro hmem; simp at hmem
      · split
        · intro hmem; simp at hmem
        · split
          · intro hmem; simp at hmem
          · rw [begin_gate, hok]
            exact bodyTx_txDiscipline _ _
              (by simp [commitCount, isCommit])
              (by simp [abortCount, isAbort])
              (add_body_tx env _ dn attrs _)

theorem ldap_modify_tx (env : Env) (p : Bool) (dn : String)
    (mods : List ModItem) (hok : env.beginRes = .ok) :
    txDiscipline (ldap_modify env p dn mods) := by
  unfold ldap_modify
  split
  · intro hmem; simp at hmem
  · split
    · intro hmem; simp at hmem
    · split
      · split
        · intro hmem; simp at hmem
        · intro hmem; simp at hmem
      · split
        · intro hmem; simp at hmem
        · rw [begin_gate, hok]
          exact bodyTx_txDiscipline _ _
            (by simp [commitCount, isCommit])
            (by simp [abortCount, isAbort])
            (modify_body_tx env _ dn mods _)

/-- C5: in every execution of the three operations in which
`namespace_begin` succeeds (so a transaction was opened, visible as
`beginTx` in the trace), exactly one of commit or abort is invoked before
the operation returns — commit on the success path, abort on every
non-success path (the sole commit-then-fail case keeps the single commit
and a non-success code). -/
theorem c5_transaction_terminated_once (env : Env) (p1 p2 p3 : Bool)
    (d1 d2 d3 : String) (attrs : Entry) (mods : List ModItem)
    (hok : env.beginRes = .ok) :
    txDiscipline (ldap_delete env p1 d1) ∧
    txDiscipline (ldap_add env p2 d2 attrs) ∧
    txDiscipline (ldap_modify env p3 d3 mods) :=
  ⟨ldap_delete_tx env p1 d1 hok, ldap_add_tx env p2 d2 attrs hok,
    ldap_modify_tx env p3 d3 mods hok⟩

/-- Witness for C5: the discipline at a concrete environment whose begin
succeeds. -/
theorem c5_witness :
    txDiscipline (ldap_delete env0 true "cn=b,cn=a,dc=x") ∧
    txDiscipline (ldap_add env0 true "cn=c,dc=x" [("mail", [.str "m"])]) ∧
    txDiscipline (ldap_modify env0 true "cn=a,dc=x"
      [⟨true, 0, "mail", [.str "x@y"]⟩]) :=
  c5_transaction_terminated_once env0 true true true "cn=b,cn=a,dc=x"
    "cn=c,dc=x" "cn=a,dc=x" [("mail", [.str "m"])]
    [⟨true, 0, "mail", [.str "x@y"]⟩] (by decide)

/-- `ldap_delete` can never produce `invalidDnSyntax`, neither as its
return value nor in any reply it sends. -/
theorem delete_never_invalid_dn (env : Env) (p : Bool) (dn : String) :
    (ldap_delete env p dn).ret ≠ some ResultCode.invalidDnSyntax ∧
    Event.respond ResultCode.invalidDnSyntax ∉ (ldap_delete env p dn).events := by
  simp only [ldap_delete, begin_gate, delete_body, delete_do, delete_fail]
  repeat' split
  all_goals simp_all

/-- Once parsing succeeds, `ldap_delete` always calls
`namespace_for_base` on the normalized key. -/
theorem delete_resolves_partition (env : Env) (dn : String) :
    Event.resolve dn ∈ (ldap_delete env true dn).events := by
  simp only [ldap_delete, begin_gate, delete_body, delete_do, delete_fail]
  repeat' split
  all_goals simp_all

/-- C10: `ldap_delete` has no empty-key check — on an empty normalized
key it proceeds straight to partition resolution and never produces
`invalidDnSyntax` — while `ldap_add` and `ldap_modify` reject the empty
key with `invalidDnSyntax` before partition resolution. -/
theorem c10_delete_skips_empty_dn_check (env : Env) (attrs : Entry)
    (mods : List ModItem) :
    Event.resolve "" ∈ (ldap_delete env true "").events ∧
    (ldap_delete env true "").ret ≠ some ResultCode.invalidDnSyntax ∧
    Event.respond ResultCode.invalidDnSyntax ∉ (ldap_delete env true "").events ∧
    ldap_add env true "" attrs =
      ⟨some .invalidDnSyntax, [.respond .invalidDnSyntax], none⟩ ∧
    ldap_modify env true "" mods =
      ⟨some .invalidDnSyntax, [.respond .invalidDnSyntax], none⟩ :=
  ⟨delete_resolves_partition env "",
    (delete_never_invalid_dn env true "").1,
    (delete_never_invalid_dn env true "").2,
    by simp [ldap_add], by simp [ldap_modify]⟩

end Ldapd
